import Mathlib

/-!
Verification of the `mpcr` multi-process code-review coordination tool
(`skills/*/scripts/mpcr-src`): the file-based exclusive lock (`lock.rs`),
the report-filename sanitizer (`paths.rs`), the session document model and
its mutating operations (`session.rs`), and the polling wait protocol
(`main.rs`).

The Rust code is shallowly embedded: pure fragments become Lean functions;
filesystem interaction is made explicit (the lock marker is an
`Option (List Char)` holding the marker file contents, the session document
store is an `Option SessionFile`, and each operation reports the list of
document writes it performed).  Wall-clock timestamps are threaded in by the
caller in the Rust code and kept as already-formatted opaque strings here;
random identifiers are passed as explicit `fresh` arguments.
-/

namespace Mpcr

/-- Constant `DEFAULT_MAX_RETRIES` from `lock.rs`. -/
def DEFAULT_MAX_RETRIES : Nat := 8

/-- Constant `INITIAL_BACKOFF_MS` from `lock.rs`. -/
def INITIAL_BACKOFF_MS : Nat := 100

/-- Constant `MAX_BACKOFF_MS` from `lock.rs`. -/
def MAX_BACKOFF_MS : Nat := 6400

/-- Outcome of one `OpenOptions::new().write(true).create_new(true).open(..)`
attempt on the lock marker path.  `otherErr` carries an abstract error code
for a non-`AlreadyExists` I/O failure. -/
inductive CreateResult where
  | created
  | alreadyExists
  | otherErr (code : Nat)
  deriving DecidableEq, Repr

/-- Result of `acquire_lock`: success (recording on which attempt the marker
was created), the `LOCK_TIMEOUT` error, or a surfaced I/O error. -/
inductive AcquireResult where
  | acquired (attempt : Nat)
  | lockTimeout
  | ioError (code : Nat)
  deriving DecidableEq, Repr

/-- The retry loop of `acquire_lock` (`lock.rs` lines 115-145).  `fs i` is the
filesystem's answer to the `create_new` attempt number `i`.  The Rust loop
tracks `attempt` and exits with `LOCK_TIMEOUT` when `attempt >= max_retries`;
the embedding carries the equivalent structurally decreasing counter
`retriesLeft = max_retries - attempt` (so `attempt >= max_retries` is exactly
`retriesLeft = 0`).  Returns the result together with the list of sleeps
(in ms, in order) performed. -/
def acquireLoop (fs : Nat → CreateResult) :
    (retriesLeft attempt waitMs : Nat) → AcquireResult × List Nat
  | 0, attempt, _ =>
    match fs attempt with
    | .created => (.acquired attempt, [])
    | .otherErr code => (.ioError code, [])
    | .alreadyExists => (.lockTimeout, [])
  | r + 1, attempt, waitMs =>
    match fs attempt with
    | .created => (.acquired attempt, [])
    | .otherErr code => (.ioError code, [])
    | .alreadyExists =>
      let rest := acquireLoop fs r (attempt + 1) (min (waitMs * 2) MAX_BACKOFF_MS)
      (rest.1, waitMs :: rest.2)

/-- Function `acquire_lock` (`lock.rs`): start at attempt 0 with a 100ms backoff and
the full retry budget. -/
def acquire_lock (fs : Nat → CreateResult) (maxRetries : Nat) : AcquireResult × List Nat :=
  acquireLoop fs maxRetries 0 INITIAL_BACKOFF_MS

/-- The backoff schedule: attempt `i` sleeps `min (100 * 2^i) 6400` ms. -/
def backoffSchedule (n : Nat) : List Nat :=
  (List.range n).map (fun i => min (INITIAL_BACKOFF_MS * 2 ^ i) MAX_BACKOFF_MS)

/-- Rust's `str::trim_end` on the character list of the marker contents:
drop trailing whitespace. -/
def trimEndChars (l : List Char) : List Char :=
  (l.reverse.dropWhile Char.isWhitespace).reverse

/-- Marker body written on acquisition by the writeln call: the owner token
followed by a newline. -/
def markerBody (owner : List Char) : List Char := owner ++ ['\n']

/-- Functions `release_lock` / `LockGuard::release_inner` (`lock.rs` lines 51-71, 92-98):
reads the marker, succeeds as a no-op if it is absent, removes it only when
its trimmed contents equal the caller's owner token.  The `Except` component
is the `anyhow::Result` (always `ok` in the modelled, I/O-fault-free paths);
the `Option` component is the marker state afterwards. -/
def release_lock (marker : Option (List Char)) (owner : List Char) :
    Except Unit Unit × Option (List Char) :=
  match marker with
  | none => (.ok (), none)
  | some contents =>
    if trimEndChars contents = owner then (.ok (), none)
    else (.ok (), some contents)

/-- Constant `MAX_REF_LEN` from `paths.rs`. -/
def MAX_REF_LEN : Nat := 64

/-- The per-character step of `sanitize_ref`: ASCII alphanumerics and
`.` / `-` / `_` survive, everything else becomes `_`. -/
def sanChar (c : Char) : Char :=
  if c.isAlphanum || c = '.' || c = '-' || c = '_' then c else '_'

/-- Trim leading and trailing `'_'` characters (`str::trim_matches('_')`). -/
def trimUnderscores (l : List Char) : List Char :=
  ((l.dropWhile (· = '_')).reverse.dropWhile (· = '_')).reverse

/-- The `out` stage of `sanitize_ref`: map every character through
`sanChar`. -/
def sanMapped (l : List Char) : List Char := l.map sanChar

/-- The `normalized` stage of `sanitize_ref`: trim leading/trailing
underscores and fall back to the fixed placeholder `"ref"` when the trimmed
result is empty. -/
def sanNormalized (l : List Char) : List Char :=
  if trimUnderscores (sanMapped l) = [] then ['r', 'e', 'f']
  else trimUnderscores (sanMapped l)

/-- Function `sanitize_ref` on character lists (`paths.rs` lines 41-60), final stage:
cap at `MAX_REF_LEN`.  The mapped string is pure ASCII (non-ASCII characters
were replaced by `'_'`), so Rust's byte-indexed `truncate(64)` coincides with
taking the first 64 characters. -/
def sanitizeChars (l : List Char) : List Char :=
  if MAX_REF_LEN < (sanNormalized l).length then (sanNormalized l).take MAX_REF_LEN
  else sanNormalized l

/-- Function `sanitize_ref` (`paths.rs`). -/
def sanitize_ref (s : String) : String :=
  String.mk (sanitizeChars s.toList)

/-- Reviewer-owned status for a single review entry. -/
inductive ReviewerStatus where
  | initializing
  | inProgress
  | finished
  | cancelled
  | error
  | blocked
  deriving DecidableEq, Repr

/-- Predicate `ReviewerStatus::is_terminal` (`session.rs` lines 43-49). -/
def ReviewerStatus.is_terminal : ReviewerStatus → Bool
  | .finished | .cancelled | .error => true
  | _ => false

/-- The `matches!(r.status, Initializing | InProgress | Blocked)` test used by
`register_reviewer` when joining an active session (`session.rs` 1344-1352). -/
def ReviewerStatus.joinable : ReviewerStatus → Bool
  | .initializing | .inProgress | .blocked => true
  | _ => false

/-- Applicator-owned status for consuming a review entry. -/
inductive InitiatorStatus where
  | requesting
  | observing
  | received
  | reviewed
  | applying
  | applied
  | cancelled
  deriving DecidableEq, Repr

/-- Optional progress marker for a reviewer's workflow. -/
inductive ReviewPhase where
  | ingestion
  | domainCoverage
  | theoremGeneration
  | adversarialProofs
  | synthesis
  | reportWriting
  deriving DecidableEq, Repr

/-- Final verdict recorded by the reviewer when finishing a review. -/
inductive ReviewVerdict where
  | approve
  | requestChanges
  | block
  deriving DecidableEq, Repr

/-- Author role for a session note. -/
inductive NoteRole where
  | reviewer
  | applicator
  deriving DecidableEq, Repr

/-- Structured note type for session notes. -/
inductive NoteType where
  | escalationTrigger
  | domainObservation
  | blockerPreview
  | question
  | handoff
  | errorDetail
  | applied
  | declined
  | deferred
  | clarificationNeeded
  | alreadyAddressed
  | acknowledged
  deriving DecidableEq, Repr

/-- Severity tallies for a review report. -/
structure SeverityCounts where
  blocker : Nat
  major : Nat
  minor : Nat
  nit : Nat
  deriving DecidableEq, Repr

/-- Constructor `SeverityCounts::zero`. -/
def SeverityCounts.zero : SeverityCounts := ⟨0, 0, 0, 0⟩

/-- A structured note appended to a review entry's `notes` array.  The
`content` field is arbitrary JSON in the Rust code; the embedding keeps it as
an opaque string (its structure is never inspected by the core). -/
structure SessionNote where
  role : NoteRole
  timestamp : String
  note_type : NoteType
  content : String
  deriving DecidableEq, Repr

/-- A single review coordination entry within a `SessionFile`.  Timestamps
are RFC3339 strings in the Rust code; the embedding threads them through as
opaque strings supplied by the caller (the core never reads the clock). -/
structure ReviewEntry where
  reviewer_id : String
  session_id : String
  target_ref : String
  initiator_status : InitiatorStatus
  status : ReviewerStatus
  parent_id : Option String
  started_at : String
  updated_at : String
  finished_at : Option String
  current_phase : Option ReviewPhase
  verdict : Option ReviewVerdict
  counts : SeverityCounts
  report_file : Option String
  notes : List SessionNote
  deriving DecidableEq, Repr

/-- Top-level session file stored as `_session.json`. -/
structure SessionFile where
  schema_version : String
  session_date : String
  repo_root : String
  reviewers : List String
  reviews : List ReviewEntry
  deriving DecidableEq, Repr

/-- Error kinds surfaced by the session operations (the Rust code uses
`anyhow` errors with distinguishing messages). -/
inductive OpError where
  /-- `validate_id8` failed for the named identifier. -/
  | identifierInvalid (label : String)
  /-- `_session.json` missing (read fails). -/
  | notFoundDoc
  /-- `review entry not found for reviewer_id/session_id`. -/
  | entryNotFound
  /-- `review entry already exists ... but target_ref differs`. -/
  | conflictTargetRef
  /-- `report_file already set; refusing to overwrite`. -/
  | conflictReportExists
  /-- `create_new` of the report file failed because it already exists. -/
  | reportFileExists
  deriving DecidableEq, Repr

/-- Function `validate_id8` (`session.rs` lines 879-887): exactly 8 ASCII
alphanumeric characters. -/
def validate_id8 (id8 : String) : Bool :=
  id8.length == 8 && id8.toList.all (·.isAlphanum)

/-- The `(reviewer_id, session_id)` key lookup predicate used by every
operation to locate an entry. -/
def matchKey (rid sid : String) (r : ReviewEntry) : Bool :=
  r.reviewer_id == rid && r.session_id == sid

deriving instance DecidableEq for Except

/-- Outcome of a mutating operation: the `anyhow::Result` together with the
ordered list of `_session.json` documents written by
`write_session_file_atomic` during the call. -/
structure OpOutcome (α : Type) where
  result : Except OpError α
  writes : List SessionFile

deriving instance DecidableEq for OpOutcome

/-- The session document on disk after an operation: the last write if any,
otherwise whatever was there before. -/
def persistedAfter (doc? : Option SessionFile) (writes : List SessionFile) :
    Option SessionFile :=
  match writes.getLast? with
  | some d => some d
  | none => doc?

/-- Rust's `iter_mut().find(pred)` followed by an in-place mutation: rewrite
the first entry satisfying `p` with `f`, or `none` when no entry matches. -/
def updateFirst (p : ReviewEntry → Bool) (f : ReviewEntry → ReviewEntry) :
    List ReviewEntry → Option (List ReviewEntry)
  | [] => none
  | x :: xs =>
    if p x then some (f x :: xs)
    else (updateFirst p f xs).map (x :: ·)

/-- Parameters for `register_reviewer`.  `reviewer_id?`/`session_id?` are the
optional CLI overrides; `now` is the caller-supplied timestamp, already
RFC3339-formatted. -/
structure RegisterParams where
  repo_root : String
  session_date : String
  target_ref : String
  reviewer_id? : Option String
  session_id? : Option String
  parent_id? : Option String
  now : String

/-- The fresh document created by `register_reviewer` when `_session.json`
does not exist yet (`session.rs` 1330-1336); `repo_root` stands for the
canonicalized path. -/
def freshDoc (p : RegisterParams) : SessionFile :=
  ⟨"1.0.0", p.session_date, p.repo_root, [], []⟩

/-- The `parent_id` validation of `register_reviewer` (`session.rs`
1305-1307): only validated when supplied. -/
def validParent (o : Option String) : Bool :=
  match o with
  | some pid => validate_id8 pid
  | none => true

/-- The `initiator_status` given to a freshly appended entry
(`session.rs` 1383-1389): inherited from the *first* entry matching
`(target_ref, session_id)` — with no openness requirement — or `Requesting`
when none matches. -/
def inheritedInitiator (p : RegisterParams) (sid : String) (doc : SessionFile) :
    InitiatorStatus :=
  match doc.reviews.find?
      (fun r => r.target_ref == p.target_ref && r.session_id == sid) with
  | some e => e.initiator_status
  | none => .requesting

/-- The entry appended by `register_reviewer` (`session.rs` 1397-1412). -/
def newEntry (p : RegisterParams) (rid sid : String) (doc : SessionFile) : ReviewEntry :=
  { reviewer_id := rid
    session_id := sid
    target_ref := p.target_ref
    initiator_status := inheritedInitiator p sid doc
    status := .initializing
    parent_id := p.parent_id?
    started_at := p.now
    updated_at := p.now
    finished_at := none
    current_phase := none
    verdict := none
    counts := SeverityCounts.zero
    report_file := none
    notes := [] }

/-- The core of `register_reviewer` after the reviewer id and session id are
resolved (`session.rs` 1359-1421): idempotent return or conflict when the
`(reviewer_id, session_id)` entry exists, otherwise append `newEntry`. -/
def registerCore (p : RegisterParams) (rid sid : String) (doc : SessionFile) :
    OpOutcome (String × String) :=
  match doc.reviews.find? (matchKey rid sid) with
  | some existing =>
    if existing.target_ref ≠ p.target_ref then ⟨.error .conflictTargetRef, []⟩
    else if rid ∈ doc.reviewers then ⟨.ok (rid, sid), []⟩
    else ⟨.ok (rid, sid), [{ doc with reviewers := doc.reviewers ++ [rid] }]⟩
  | none =>
    ⟨.ok (rid, sid),
      [{ doc with
          reviewers := if rid ∈ doc.reviewers then doc.reviewers
            else doc.reviewers ++ [rid],
          reviews := doc.reviews ++ [newEntry p rid sid doc] }]⟩

/-- Function `register_reviewer` (`session.rs` 1298-1422).  `freshReviewer` and
`freshSession` are the `id::random_id8()` values that would be minted when
the respective override is absent (the randomness source made explicit);
`doc?` is the state of `_session.json` (`none` = absent, so a fresh document
is created). -/
def register_reviewer (p : RegisterParams) (freshReviewer freshSession : String)
    (doc? : Option SessionFile) : OpOutcome (String × String) :=
  if ¬ validate_id8 (p.reviewer_id?.getD freshReviewer) then
    ⟨.error (.identifierInvalid "reviewer_id"), []⟩
  else if ¬ validParent p.parent_id? then
    ⟨.error (.identifierInvalid "parent_id"), []⟩
  else
    match p.session_id? with
    | some sid =>
      if ¬ validate_id8 sid then ⟨.error (.identifierInvalid "session_id"), []⟩
      else registerCore p (p.reviewer_id?.getD freshReviewer) sid (doc?.getD (freshDoc p))
    | none =>
      registerCore p (p.reviewer_id?.getD freshReviewer)
        (match (doc?.getD (freshDoc p)).reviews.find?
            (fun r => r.target_ref == p.target_ref && r.status.joinable) with
         | some r => r.session_id
         | none => freshSession)
        (doc?.getD (freshDoc p))

/-- Parameters for `update_review`. -/
structure UpdateReviewParams where
  reviewer_id : String
  session_id : String
  status : Option ReviewerStatus
  phase : Option (Option ReviewPhase)
  now : String

/-- The in-place entry mutation performed by `update_review`
(`session.rs` 1465-1471): apply only the supplied fields and bump
`updated_at`. -/
def applyUpdate (p : UpdateReviewParams) (e : ReviewEntry) : ReviewEntry :=
  { e with
      status := p.status.getD e.status
      current_phase := match p.phase with
        | some ph => ph
        | none => e.current_phase
      updated_at := p.now }

/-- Function `update_review` (`session.rs` 1446-1475). -/
def update_review (p : UpdateReviewParams) (doc? : Option SessionFile) :
    OpOutcome Unit :=
  if ¬ validate_id8 p.reviewer_id then ⟨.error (.identifierInvalid "reviewer_id"), []⟩
  else if ¬ validate_id8 p.session_id then ⟨.error (.identifierInvalid "session_id"), []⟩
  else
    match doc? with
    | none => ⟨.error .notFoundDoc, []⟩
    | some doc =>
      match updateFirst (matchKey p.reviewer_id p.session_id) (applyUpdate p) doc.reviews with
      | none => ⟨.error .entryNotFound, []⟩
      | some reviews' => ⟨.ok (), [{ doc with reviews := reviews' }]⟩

/-- Parameters for `append_note`. -/
structure AppendNoteParams where
  reviewer_id : String
  session_id : String
  role : NoteRole
  note_type : NoteType
  content : String
  now : String
  lock_owner : String

/-- Function `append_note` (`session.rs` 1639-1667). -/
def append_note (p : AppendNoteParams) (doc? : Option SessionFile) :
    OpOutcome Unit :=
  if ¬ validate_id8 p.reviewer_id then ⟨.error (.identifierInvalid "reviewer_id"), []⟩
  else if ¬ validate_id8 p.session_id then ⟨.error (.identifierInvalid "session_id"), []⟩
  else if ¬ validate_id8 p.lock_owner then ⟨.error (.identifierInvalid "lock_owner"), []⟩
  else
    match doc? with
    | none => ⟨.error .notFoundDoc, []⟩
    | some doc =>
      match updateFirst (matchKey p.reviewer_id p.session_id)
          (fun e =>
            { e with
                notes := e.notes ++ [⟨p.role, p.now, p.note_type, p.content⟩]
                updated_at := p.now })
          doc.reviews with
      | none => ⟨.error .entryNotFound, []⟩
      | some reviews' => ⟨.ok (), [{ doc with reviews := reviews' }]⟩

/-- Parameters for `set_initiator_status`. -/
structure SetInitiatorStatusParams where
  reviewer_id : String
  session_id : String
  initiator_status : InitiatorStatus
  now : String
  lock_owner : String

/-- Function `set_initiator_status` (`session.rs` 1691-1714). -/
def set_initiator_status (p : SetInitiatorStatusParams) (doc? : Option SessionFile) :
    OpOutcome Unit :=
  if ¬ validate_id8 p.reviewer_id then ⟨.error (.identifierInvalid "reviewer_id"), []⟩
  else if ¬ validate_id8 p.session_id then ⟨.error (.identifierInvalid "session_id"), []⟩
  else if ¬ validate_id8 p.lock_owner then ⟨.error (.identifierInvalid "lock_owner"), []⟩
  else
    match doc? with
    | none => ⟨.error .notFoundDoc, []⟩
    | some doc =>
      match updateFirst (matchKey p.reviewer_id p.session_id)
          (fun e => { e with initiator_status := p.initiator_status, updated_at := p.now })
          doc.reviews with
      | none => ⟨.error .entryNotFound, []⟩
      | some reviews' => ⟨.ok (), [{ doc with reviews := reviews' }]⟩

/-- Parameters for `finalize_review`. -/
structure FinalizeParams where
  reviewer_id : String
  session_id : String
  verdict : ReviewVerdict
  counts : SeverityCounts
  report_markdown : String
  now : String

/-- Result returned by `finalize_review`: the stored `report_file` and the
full `report_path`. -/
structure FinalizeResult where
  report_file : String
  report_path : String
  deriving DecidableEq, Repr

/-- Outcome of `finalize_review`: the result, the `_session.json` writes, and
the report file written in phase 2 (path and contents), if any. -/
structure FinalizeOutcome where
  result : Except OpError FinalizeResult
  writes : List SessionFile
  reportWrite : Option (String × String)

deriving instance DecidableEq for FinalizeOutcome

/-- The `[hour]-[minute]-[second]-[subsecond digits:3]` prefix of the report
filename, extracted from a whole-second RFC3339 UTC timestamp
(`YYYY-MM-DDTHH:MM:SSZ`): characters 11-18 with `:` replaced by `-`, plus
`-000` for the zero subsecond field.  (In the Rust code the timestamp is
parsed with `OffsetDateTime::parse` and reformatted; the embedding treats
`started_at` as already well-formed, which register guarantees.) -/
def timeSegment (s : String) : String :=
  String.mk ((((s.toList.drop 11).take 8).map
    (fun c => if c = ':' then '-' else c)) ++ ['-', '0', '0', '0'])

/-- Function `report_file_name` (`session.rs` 1477-1489). -/
def report_file_name (started_at target_ref reviewer_id : String) : String :=
  timeSegment started_at ++ "_" ++ sanitize_ref target_ref ++ "_" ++ reviewer_id ++ ".md"

/-- The mutation applied to the entry in phase 3 of `finalize_review`
(`session.rs` 1596-1602). -/
def applyFinalize (p : FinalizeParams) (report_file : String) (e : ReviewEntry) :
    ReviewEntry :=
  { e with
      status := .finished
      current_phase := some .reportWriting
      verdict := some p.verdict
      counts := p.counts
      report_file := some report_file
      finished_at := some p.now
      updated_at := p.now }

/-- Function `finalize_review` (`session.rs` 1529-1611), sequential (no interleaved
writer between the two locked phases).  `session_dir` is the session
directory path as a string; `reportExists` tells whether a file already sits
at the computed report path (phase 2's exclusive `create_new` fails then);
`relOverride` is `strip_repo_root_best_effort`'s result (`none` means the
bare filename is stored) — path canonicalization is I/O and stays outside
the embedding. -/
def finalize_review (p : FinalizeParams) (session_dir : String)
    (doc? : Option SessionFile) (reportExists : Bool) (relOverride : Option String) :
    FinalizeOutcome :=
  if ¬ validate_id8 p.reviewer_id then ⟨.error (.identifierInvalid "reviewer_id"), [], none⟩
  else if ¬ validate_id8 p.session_id then ⟨.error (.identifierInvalid "session_id"), [], none⟩
  else
    match doc? with
    | none => ⟨.error .notFoundDoc, [], none⟩
    | some doc =>
      match doc.reviews.find? (matchKey p.reviewer_id p.session_id) with
      | none => ⟨.error .entryNotFound, [], none⟩
      | some entry =>
        if entry.report_file.isSome then ⟨.error .conflictReportExists, [], none⟩
        else if reportExists then ⟨.error .reportFileExists, [], none⟩
        else
          match updateFirst (matchKey p.reviewer_id p.session_id)
              (applyFinalize p
                ((relOverride).getD
                  (report_file_name entry.started_at entry.target_ref p.reviewer_id)))
              doc.reviews with
          | none =>
            ⟨.error .entryNotFound, [],
              some (session_dir ++ "/" ++
                  report_file_name entry.started_at entry.target_ref p.reviewer_id,
                if p.report_markdown.endsWith "\n" then p.report_markdown
                else p.report_markdown ++ "\n")⟩
          | some reviews' =>
            ⟨.ok ⟨(relOverride).getD
                (report_file_name entry.started_at entry.target_ref p.reviewer_id),
              session_dir ++ "/" ++
                report_file_name entry.started_at entry.target_ref p.reviewer_id⟩,
              [{ doc with reviews := reviews' }],
              some (session_dir ++ "/" ++
                  report_file_name entry.started_at entry.target_ref p.reviewer_id,
                if p.report_markdown.endsWith "\n" then p.report_markdown
                else p.report_markdown ++ "\n")⟩

/-- What one iteration of the wait loop decides to do. -/
inductive WaitAction where
  /-- Return successfully ("nothing left to wait for"). -/
  | ret
  /-- Propagate an error (the `?` on `load_session`). -/
  | fail
  /-- Sleep with backoff and poll again. -/
  | sleepRetry
  deriving DecidableEq, Repr

/-- The per-entry filter of the wait loop (`target_ref` / `session_id`
`continue` guards). -/
def waitMatches (target_ref session_id : Option String) (r : ReviewEntry) : Bool :=
  (match target_ref with
   | some tr => r.target_ref == tr
   | none => true) &&
  (match session_id with
   | some sid => r.session_id == sid
   | none => true)

/-- Flag `has_pending` of the wait loop: some filter-matched entry has a
non-terminal status. -/
def hasPending (d : SessionFile) (target_ref session_id : Option String) : Bool :=
  d.reviews.any (fun r => waitMatches target_ref session_id r && !r.status.is_terminal)

/-- One iteration of `wait_for_reviews` as shipped in the
`apply-code-review` and `perform-code-review` copies (`main.rs` 987-1025 and
850-887 respectively): `load_session(..)?` propagates a read failure, so a
missing `_session.json` (`doc? = none`) makes the call fail. -/
def wait_step (doc? : Option SessionFile) (target_ref session_id : Option String) :
    WaitAction :=
  match doc? with
  | none => .fail
  | some d => if hasPending d target_ref session_id then .sleepRetry else .ret

/-- One iteration of `wait_for_reviews` as shipped in the `code-review` copy
(`main.rs` 1255-1310): when `_session.json` does not exist
(`fileExists = false`) the loop returns immediately if no filters were given
and keeps polling otherwise; when it exists the body is identical to
`wait_step`. -/
def wait_step_cr (fileExists : Bool) (doc? : Option SessionFile)
    (target_ref session_id : Option String) : WaitAction :=
  if ¬ fileExists then
    if target_ref.isSome || session_id.isSome then .sleepRetry else .ret
  else
    match doc? with
    | none => .fail
    | some d => if hasPending d target_ref session_id then .sleepRetry else .ret

/-- The documented invariant on a session document (`spec §3`): `reviewers`
contains exactly the distinct `reviewer_id` values appearing across
`reviews`. -/
def reviewersExact (d : SessionFile) : Prop :=
  ∀ x, x ∈ d.reviewers ↔ x ∈ d.reviews.map ReviewEntry.reviewer_id

/-- Atomicity-on-failure for an operation outcome relative to the pre-call
document state: an error means nothing was written (so the persisted document
is untouched), and in all cases at most one write happens. -/
def ErrAtomic {α : Type} (doc? : Option SessionFile) (o : OpOutcome α) : Prop :=
  (∀ e, o.result = .error e → o.writes = [] ∧ persistedAfter doc? o.writes = doc?) ∧
  o.writes.length ≤ 1

/-- Invariant preservation for an operation relative to the pre-call
document: if the pre-state (when present) satisfies `reviewersExact`, so does
whatever document is persisted after the call. -/
def PreservesInv (doc? : Option SessionFile) (writes : List SessionFile) : Prop :=
  (∀ doc, doc? = some doc → reviewersExact doc) →
  ∀ d', persistedAfter doc? writes = some d' → reviewersExact d'

/-- The state `register_reviewer` leaves behind on success, for a given
`(reviewer_id, session_id)` pair: an entry with that key and the requested
`target_ref` exists, and the reviewer id is listed in `reviewers`. -/
def RegEstablished (p : RegisterParams) (rid sid : String) (d : SessionFile) : Prop :=
  (∃ e, d.reviews.find? (matchKey rid sid) = some e ∧ e.target_ref = p.target_ref) ∧
  rid ∈ d.reviewers

/-- Concrete document and parameters for the C4 witness: an update against a
session whose `reviews` is empty fails with `entryNotFound`. -/
def dC4 : SessionFile := ⟨"1.0.0", "2026-01-11", "/repo", [], []⟩

/-- Update parameters used by the C4 witness. -/
def pC4 : UpdateReviewParams := ⟨"deadbeef", "sess0001", some .inProgress, none, "T1"⟩

/-- Empty base document for the C5 witness. -/
def dC5 : SessionFile := ⟨"1.0.0", "2026-01-11", "/repo", [], []⟩

/-- Register parameters for the C5 witness. -/
def pC5 : RegisterParams :=
  ⟨"/repo", "2026-01-11", "main", some "deadbeef", some "sess0001", none, "T0"⟩

/-- The document persisted by the C5 witness's register call. -/
def dC5post : SessionFile :=
  (persistedAfter (some dC5)
    (register_reviewer pC5 "aaaaaaaa" "bbbbbbbb" (some dC5)).writes).getD dC5

/-- Empty base document for the C2 witness. -/
def dC2 : SessionFile := ⟨"1.0.0", "2026-01-11", "/repo", [], []⟩

/-- Register parameters for the C2 witness (explicit valid ids). -/
def pC2 : RegisterParams :=
  ⟨"/repo", "2026-01-11", "main", some "deadbeef", some "sess0001", none, "T0"⟩

/-- The already-finalized entry used by the C3 witness. -/
def eC3 : ReviewEntry :=
  ⟨"deadbeef", "sess0001", "main", .received, .finished, none, "T0", "T1",
    some "T2", some .reportWriting, some .approve, SeverityCounts.zero,
    some "existing.md", []⟩

/-- The document holding `eC3` for the C3 witness. -/
def dC3 : SessionFile := ⟨"1.0.0", "2026-01-11", "/repo", ["deadbeef"], [eC3]⟩

/-- Finalize parameters for the C3 witness. -/
def pC3 : FinalizeParams :=
  ⟨"deadbeef", "sess0001", .approve, SeverityCounts.zero, "report\n", "T3"⟩

/-- The terminal (`FINISHED`) entry reopened by the C10 witness. -/
def eC10 : ReviewEntry :=
  ⟨"deadbeef", "sess0001", "main", .received, .finished, none, "T0", "T1",
    some "T2", some .reportWriting, some .approve, SeverityCounts.zero,
    some "r.md", []⟩

/-- The document holding `eC10` for the C10 witness. -/
def dC10 : SessionFile := ⟨"1.0.0", "2026-01-11", "/repo", ["deadbeef"], [eC10]⟩

/-- Update parameters for the C10 witness: set a terminal entry back to
`IN_PROGRESS`. -/
def pC10 : UpdateReviewParams := ⟨"deadbeef", "sess0001", some .inProgress, none, "T3"⟩

/-- The closed (`FINISHED`) entry of session `sess0001` whose
`initiator_status` the code inherits from, refuting C7's openness condition. -/
def eC7 : ReviewEntry :=
  ⟨"aaaaaaaa", "sess0001", "main", .applied, .finished, none, "T0", "T1",
    some "T2", none, some .approve, SeverityCounts.zero, some "r.md", []⟩

/-- Document for the C7 counterexample: its only `(main, sess0001)` entry is
terminal. -/
def dC7 : SessionFile := ⟨"1.0.0", "2026-01-11", "/repo", ["aaaaaaaa"], [eC7]⟩

/-- Register parameters for the C7 counterexample: a second reviewer joins
session `sess0001` explicitly. -/
def pC7 : RegisterParams :=
  ⟨"/repo", "2026-01-11", "main", some "bbbbbbbb", some "sess0001", none, "T3"⟩

/-! ## Helper lemmas -/

lemma updateFirst_of_find? {p : ReviewEntry → Bool} {f : ReviewEntry → ReviewEntry}
    (hf : ∀ a, p a = true → p (f a) = true) :
    ∀ {l : List ReviewEntry} {e : ReviewEntry}, l.find? p = some e →
      ∃ l', updateFirst p f l = some l' ∧ l'.find? p = some (f e) ∧
        l'.length = l.length := by
  intro l
  induction l with
  | nil => intro e h; simp at h
  | cons x xs ih =>
    intro e h
    cases hx : p x with
    | true =>
      rw [List.find?_cons_of_pos _ hx] at h
      injection h with h2
      subst h2
      exact ⟨f x :: xs, by simp [updateFirst, hx],
        by rw [List.find?_cons_of_pos _ (hf x hx)], by simp⟩
    | false =>
      rw [List.find?_cons_of_neg _ (by simp [hx])] at h
      obtain ⟨l', h1, h2, h3⟩ := ih h
      exact ⟨x :: l', by simp [updateFirst, hx, h1],
        by rw [List.find?_cons_of_neg _ (by simp [hx]), h2], by simp [h3]⟩

lemma updateFirst_map_eq {p : ReviewEntry → Bool} {f : ReviewEntry → ReviewEntry}
    {γ : Type} {g : ReviewEntry → γ} (hg : ∀ a, g (f a) = g a) :
    ∀ {l l' : List ReviewEntry}, updateFirst p f l = some l' → l'.map g = l.map g := by
  intro l
  induction l with
  | nil => intro l' h; simp [updateFirst] at h
  | cons x xs ih =>
    intro l' h
    cases hx : p x with
    | true =>
      simp only [updateFirst, hx, if_pos, Option.some.injEq] at h
      subst h
      simp [hg]
    | false =>
      simp only [updateFirst, hx, Bool.false_eq_true, if_false, Option.map_eq_some'] at h
      obtain ⟨l'', hl'', rfl⟩ := h
      simp [ih hl'']

lemma updateFirst_map_eq' {p : ReviewEntry → Bool} {f : ReviewEntry → ReviewEntry}
    {l l' : List ReviewEntry} (h : updateFirst p f l = some l') {γ : Type}
    (g : ReviewEntry → γ) (hg : ∀ a, g (f a) = g a) : l'.map g = l.map g :=
  updateFirst_map_eq hg h

lemma errAtomic_error {α : Type} (doc? : Option SessionFile) (e : OpError) :
    ErrAtomic doc? (⟨.error e, []⟩ : OpOutcome α) :=
  ⟨fun _ _ => ⟨rfl, rfl⟩, by simp⟩

lemma errAtomic_ok {α : Type} (doc? : Option SessionFile) (a : α) (d : SessionFile) :
    ErrAtomic doc? ⟨.ok a, [d]⟩ :=
  ⟨fun e h => (by cases h), by simp⟩

lemma errAtomic_ok_nil {α : Type} (doc? : Option SessionFile) (a : α) :
    ErrAtomic doc? ⟨.ok a, []⟩ :=
  ⟨fun e h => (by cases h), by simp⟩

lemma update_review_atomic (p : UpdateReviewParams) (doc? : Option SessionFile) :
    ErrAtomic doc? (update_review p doc?) := by
  unfold update_review
  split
  · exact errAtomic_error _ _
  · split
    · exact errAtomic_error _ _
    · split
      · exact errAtomic_error _ _
      · split
        · exact errAtomic_error _ _
        · exact errAtomic_ok _ _ _

lemma append_note_atomic (p : AppendNoteParams) (doc? : Option SessionFile) :
    ErrAtomic doc? (append_note p doc?) := by
  unfold append_note
  split
  · exact errAtomic_error _ _
  · split
    · exact errAtomic_error _ _
    · split
      · exact errAtomic_error _ _
      · split
        · exact errAtomic_error _ _
        · split
          · exact errAtomic_error _ _
          · exact errAtomic_ok _ _ _

lemma set_initiator_status_atomic (p : SetInitiatorStatusParams) (doc? : Option SessionFile) :
    ErrAtomic doc? (set_initiator_status p doc?) := by
  unfold set_initiator_status
  split
  · exact errAtomic_error _ _
  · split
    · exact errAtomic_error _ _
    · split
      · exact errAtomic_error _ _
      · split
        · exact errAtomic_error _ _
        · split
          · exact errAtomic_error _ _
          · exact errAtomic_ok _ _ _

lemma registerCore_atomic (p : RegisterParams) (rid sid : String) (doc : SessionFile)
    (doc? : Option SessionFile) :
    ErrAtomic doc? (registerCore p rid sid doc) := by
  unfold registerCore
  split
  · split
    · exact errAtomic_error _ _
    · split
      · exact errAtomic_ok_nil _ _
      · exact errAtomic_ok _ _ _
  · exact errAtomic_ok _ _ _

lemma register_reviewer_atomic (p : RegisterParams) (fr fs : String)
    (doc? : Option SessionFile) :
    ErrAtomic doc? (register_reviewer p fr fs doc?) := by
  unfold register_reviewer
  split
  · exact errAtomic_error _ _
  · split
    · exact errAtomic_error _ _
    · split
      · split
        · exact errAtomic_error _ _
        · exact registerCore_atomic _ _ _ _ _
      · exact registerCore_atomic _ _ _ _ _

lemma finalize_review_atomic (p : FinalizeParams) (session_dir : String)
    (doc? : Option SessionFile) (reportExists : Bool) (relOverride : Option String) :
    (∀ e, (finalize_review p session_dir doc? reportExists relOverride).result = .error e →
      (finalize_review p session_dir doc? reportExists relOverride).writes = [] ∧
      persistedAfter doc?
        (finalize_review p session_dir doc? reportExists relOverride).writes = doc?) ∧
    (finalize_review p session_dir doc? reportExists relOverride).writes.length ≤ 1 := by
  unfold finalize_review
  split
  · exact ⟨fun _ _ => ⟨rfl, rfl⟩, by simp⟩
  · split
    · exact ⟨fun _ _ => ⟨rfl, rfl⟩, by simp⟩
    · split
      · exact ⟨fun _ _ => ⟨rfl, rfl⟩, by simp⟩
      · split
        · exact ⟨fun _ _ => ⟨rfl, rfl⟩, by simp⟩
        · split
          · exact ⟨fun _ _ => ⟨rfl, rfl⟩, by simp⟩
          · split
            · exact ⟨fun _ _ => ⟨rfl, rfl⟩, by simp⟩
            · split
              · exact ⟨fun _ _ => ⟨rfl, rfl⟩, by simp⟩
              · exact ⟨fun e h => (by cases h), by simp⟩

lemma preservesInv_nil (doc? : Option SessionFile) : PreservesInv doc? [] := by
  intro hpre d' hd'
  cases doc? with
  | none => cases hd'
  | some doc =>
    have : doc = d' := by simpa [persistedAfter] using hd'
    exact this ▸ hpre doc rfl

lemma inv_of_reviews_map_eq {doc : SessionFile} {l' : List ReviewEntry}
    (hinv : reviewersExact doc)
    (hmap : l'.map ReviewEntry.reviewer_id = doc.reviews.map ReviewEntry.reviewer_id) :
    reviewersExact { doc with reviews := l' } := by
  intro x
  show x ∈ doc.reviewers ↔ x ∈ l'.map ReviewEntry.reviewer_id
  rw [hmap]
  exact hinv x

lemma preservesInv_single {doc : SessionFile} {l' : List ReviewEntry}
    (hmap : reviewersExact doc → reviewersExact { doc with reviews := l' }) :
    PreservesInv (some doc) [{ doc with reviews := l' }] := by
  intro hpre d' hd'
  have hd : ({ doc with reviews := l' } : SessionFile) = d' := by
    simpa [persistedAfter] using hd'
  exact hd ▸ hmap (hpre doc rfl)

lemma update_review_preservesInv (p : UpdateReviewParams) (doc? : Option SessionFile) :
    PreservesInv doc? (update_review p doc?).writes := by
  unfold update_review
  split
  · exact preservesInv_nil _
  · split
    · exact preservesInv_nil _
    · split
      · exact preservesInv_nil _
      · rename_i doc heq
        split
        · exact preservesInv_nil _
        · rename_i l' hupd
          exact preservesInv_single (fun hinv =>
            inv_of_reviews_map_eq hinv
              (updateFirst_map_eq' hupd ReviewEntry.reviewer_id (fun a => rfl)))

lemma append_note_preservesInv (p : AppendNoteParams) (doc? : Option SessionFile) :
    PreservesInv doc? (append_note p doc?).writes := by
  unfold append_note
  split
  · exact preservesInv_nil _
  · split
    · exact preservesInv_nil _
    · split
      · exact preservesInv_nil _
      · split
        · exact preservesInv_nil _
        · split
          · exact preservesInv_nil _
          · rename_i l' hupd
            exact preservesInv_single (fun hinv =>
              inv_of_reviews_map_eq hinv
                (updateFirst_map_eq' hupd ReviewEntry.reviewer_id (fun a => rfl)))

lemma set_initiator_status_preservesInv (p : SetInitiatorStatusParams)
    (doc? : Option SessionFile) :
    PreservesInv doc? (set_initiator_status p doc?).writes := by
  unfold set_initiator_status
  split
  · exact preservesInv_nil _
  · split
    · exact preservesInv_nil _
    · split
      · exact preservesInv_nil _
      · split
        · exact preservesInv_nil _
        · split
          · exact preservesInv_nil _
          · rename_i l' hupd
            exact preservesInv_single (fun hinv =>
              inv_of_reviews_map_eq hinv
                (updateFirst_map_eq' hupd ReviewEntry.reviewer_id (fun a => rfl)))

lemma finalize_review_preservesInv (p : FinalizeParams) (session_dir : String)
    (doc? : Option SessionFile) (reportExists : Bool) (relOverride : Option String) :
    PreservesInv doc? (finalize_review p session_dir doc? reportExists relOverride).writes := by
  unfold finalize_review
  split
  · exact preservesInv_nil _
  · split
    · exact preservesInv_nil _
    · split
      · exact preservesInv_nil _
      · split
        · exact preservesInv_nil _
        · split
          · exact preservesInv_nil _
          · split
            · exact preservesInv_nil _
            · split
              · exact preservesInv_nil _
              · rename_i l' hupd
                exact preservesInv_single (fun hinv =>
                  inv_of_reviews_map_eq hinv
                    (updateFirst_map_eq' hupd ReviewEntry.reviewer_id (fun a => rfl)))

lemma registerCore_preservesInv (p : RegisterParams) (rid sid : String)
    (doc : SessionFile) (hinv : reviewersExact doc) :
    ∀ d' ∈ (registerCore p rid sid doc).writes, reviewersExact d' := by
  unfold registerCore
  split
  case _ existing hfind =>
    split
    · simp
    · split
      · simp
      · rename_i htr hmem
        intro d' hd'
        simp only [List.mem_singleton] at hd'
        subst hd'
        intro x
        have hrid : rid ∈ doc.reviews.map ReviewEntry.reviewer_id := by
          have h1 := List.mem_of_find?_eq_some hfind
          have h2 := List.find?_some hfind
          simp only [matchKey, Bool.and_eq_true, beq_iff_eq] at h2
          exact List.mem_map.mpr ⟨existing, h1, h2.1⟩
        show x ∈ doc.reviewers ++ [rid] ↔ x ∈ doc.reviews.map ReviewEntry.reviewer_id
        simp only [List.mem_append, List.mem_singleton]
        constructor
        · rintro (hx | rfl)
          · exact (hinv x).mp hx
          · exact hrid
        · intro hx
          exact Or.inl ((hinv x).mpr hx)
  case _ hfind =>
    intro d' hd'
    simp only [List.mem_singleton] at hd'
    subst hd'
    intro x
    show (x ∈ if rid ∈ doc.reviewers then doc.reviewers else doc.reviewers ++ [rid]) ↔ _
    by_cases hmem : rid ∈ doc.reviewers
    · rw [if_pos hmem]
      simp only [List.map_append, List.mem_append, List.map_cons, List.map_nil,
        List.mem_singleton]
      constructor
      · intro hx
        exact Or.inl ((hinv x).mp hx)
      · rintro (hx | rfl)
        · exact (hinv x).mpr hx
        · exact hmem
    · rw [if_neg hmem]
      simp only [List.map_append, List.mem_append, List.map_cons, List.map_nil,
        List.mem_singleton]
      constructor
      · rintro (hx | hx)
        · exact Or.inl ((hinv x).mp hx)
        · exact Or.inr hx
      · rintro (hx | rfl)
        · exact Or.inl ((hinv x).mpr hx)
        · exact Or.inr rfl

lemma register_reviewer_preservesInv (p : RegisterParams) (fr fs : String)
    (doc? : Option SessionFile) :
    PreservesInv doc? (register_reviewer p fr fs doc?).writes := by
  have hbase : (∀ doc, doc? = some doc → reviewersExact doc) →
      reviewersExact (doc?.getD (freshDoc p)) := by
    intro hpre
    cases doc? with
    | none => intro x; simp [freshDoc]
    | some doc => exact hpre doc rfl
  have hcore : ∀ rid sid, PreservesInv doc? (registerCore p rid sid (doc?.getD (freshDoc p))).writes := by
    intro rid sid hpre d' hd'
    rcases hw : (registerCore p rid sid (doc?.getD (freshDoc p))).writes with _ | ⟨d0, rest⟩
    · rw [hw] at hd'
      exact preservesInv_nil doc? hpre d' hd'
    · have h1 := registerCore_preservesInv p rid sid _ (hbase hpre) d'
      rcases rest with _ | ⟨d1, rest1⟩
      · have : d0 = d' := by simpa [persistedAfter, hw] using hd'
        exact h1 (by rw [hw, ← this]; exact List.mem_singleton.mpr rfl)
      · -- registerCore never writes twice
        exfalso
        have := (registerCore_atomic p rid sid (doc?.getD (freshDoc p)) doc?).2
        rw [hw] at this
        simp at this
  unfold register_reviewer
  split
  · exact preservesInv_nil _
  · split
    · exact preservesInv_nil _
    · split
      · split
        · exact preservesInv_nil _
        · exact hcore _ _
      · exact hcore _ _

lemma registerCore_established (p : RegisterParams) (rid sid : String)
    (doc : SessionFile) (h : RegEstablished p rid sid doc) :
    registerCore p rid sid doc = ⟨.ok (rid, sid), []⟩ := by
  obtain ⟨⟨e, hfind, htr⟩, hmem⟩ := h
  unfold registerCore
  rw [hfind]
  simp [htr, hmem]

lemma registerCore_eq_existing_push (p : RegisterParams) (rid sid : String)
    (doc : SessionFile) (e : ReviewEntry)
    (hfind : doc.reviews.find? (matchKey rid sid) = some e)
    (htr : e.target_ref = p.target_ref) (hmem : rid ∉ doc.reviewers) :
    registerCore p rid sid doc =
      ⟨.ok (rid, sid), [{ doc with reviewers := doc.reviewers ++ [rid] }]⟩ := by
  unfold registerCore
  rw [hfind]
  simp [htr, hmem]

lemma registerCore_eq_conflict (p : RegisterParams) (rid sid : String)
    (doc : SessionFile) (e : ReviewEntry)
    (hfind : doc.reviews.find? (matchKey rid sid) = some e)
    (htr : e.target_ref ≠ p.target_ref) :
    registerCore p rid sid doc = ⟨.error .conflictTargetRef, []⟩ := by
  unfold registerCore
  rw [hfind]
  simp [htr]

lemma registerCore_eq_new (p : RegisterParams) (rid sid : String)
    (doc : SessionFile) (hfind : doc.reviews.find? (matchKey rid sid) = none) :
    registerCore p rid sid doc =
      ⟨.ok (rid, sid),
        [{ doc with
            reviewers := if rid ∈ doc.reviewers then doc.reviewers
              else doc.reviewers ++ [rid],
            reviews := doc.reviews ++ [newEntry p rid sid doc] }]⟩ := by
  unfold registerCore
  rw [hfind]

lemma matchKey_newEntry (p : RegisterParams) (rid sid : String) (doc : SessionFile) :
    matchKey rid sid (newEntry p rid sid doc) = true := by
  simp [matchKey, newEntry]

lemma find?_key_append_new (p : RegisterParams) (rid sid : String) (doc : SessionFile)
    (hfind : doc.reviews.find? (matchKey rid sid) = none) :
    (doc.reviews ++ [newEntry p rid sid doc]).find? (matchKey rid sid)
      = some (newEntry p rid sid doc) := by
  rw [List.find?_append, hfind]
  simp [matchKey_newEntry]

lemma regEstablished_new (p : RegisterParams) (rid sid : String) (doc : SessionFile)
    (hfind : doc.reviews.find? (matchKey rid sid) = none) :
    RegEstablished p rid sid
      { doc with
          reviewers := if rid ∈ doc.reviewers then doc.reviewers
            else doc.reviewers ++ [rid],
          reviews := doc.reviews ++ [newEntry p rid sid doc] } := by
  constructor
  · exact ⟨newEntry p rid sid doc, find?_key_append_new p rid sid doc hfind, rfl⟩
  · show rid ∈ (if rid ∈ doc.reviewers then doc.reviewers else doc.reviewers ++ [rid])
    by_cases hmem : rid ∈ doc.reviewers
    · rwa [if_pos hmem]
    · rw [if_neg hmem]
      simp

lemma registerCore_ok_cases (p : RegisterParams) (rid sid : String)
    (doc : SessionFile) (ids : String × String)
    (h : (registerCore p rid sid doc).result = .ok ids) :
    ids = (rid, sid) ∧
    ((registerCore p rid sid doc).writes = [] ∧ RegEstablished p rid sid doc ∨
     ∃ d', (registerCore p rid sid doc).writes = [d'] ∧ RegEstablished p rid sid d') := by
  rcases hfind : doc.reviews.find? (matchKey rid sid) with _ | e
  · rw [registerCore_eq_new p rid sid doc hfind] at h ⊢
    injection h with h2
    exact ⟨h2.symm, Or.inr ⟨_, rfl, regEstablished_new p rid sid doc hfind⟩⟩
  · by_cases htr : e.target_ref = p.target_ref
    · by_cases hmem : rid ∈ doc.reviewers
      · rw [registerCore_established p rid sid doc ⟨⟨e, hfind, htr⟩, hmem⟩] at h ⊢
        injection h with h2
        exact ⟨h2.symm, Or.inl ⟨rfl, ⟨e, hfind, htr⟩, hmem⟩⟩
      · rw [registerCore_eq_existing_push p rid sid doc e hfind htr hmem] at h ⊢
        injection h with h2
        refine ⟨h2.symm, Or.inr ⟨_, rfl, ⟨e, hfind, htr⟩, ?_⟩⟩
        simp
    · rw [registerCore_eq_conflict p rid sid doc e hfind htr] at h
      cases h

lemma register_reviewer_explicit (p : RegisterParams) (rid sid fr fs : String)
    (doc? : Option SessionFile)
    (hr : p.reviewer_id? = some rid) (hs : p.session_id? = some sid)
    (hv1 : validate_id8 rid = true) (hv2 : validParent p.parent_id? = true)
    (hv3 : validate_id8 sid = true) :
    register_reviewer p fr fs doc? = registerCore p rid sid (doc?.getD (freshDoc p)) := by
  unfold register_reviewer
  rw [hr, hs]
  simp [hv1, hv2, hv3]

lemma register_ok_valid (p : RegisterParams) (rid sid fr fs : String)
    (doc? : Option SessionFile) (ids : String × String)
    (hr : p.reviewer_id? = some rid) (hs : p.session_id? = some sid)
    (hok : (register_reviewer p fr fs doc?).result = .ok ids) :
    validate_id8 rid = true ∧ validParent p.parent_id? = true ∧
      validate_id8 sid = true := by
  by_cases hv1 : validate_id8 rid = true
  · by_cases hv2 : validParent p.parent_id? = true
    · by_cases hv3 : validate_id8 sid = true
      · exact ⟨hv1, hv2, hv3⟩
      · exfalso
        unfold register_reviewer at hok
        rw [hr, hs] at hok
        simp [hv1, hv2, hv3] at hok
    · exfalso
      unfold register_reviewer at hok
      rw [hr, hs] at hok
      simp [hv1, hv2] at hok
  · exfalso
    unfold register_reviewer at hok
    rw [hr] at hok
    simp [hv1] at hok

lemma backoff_double (a : Nat) :
    min (min (INITIAL_BACKOFF_MS * 2 ^ a) MAX_BACKOFF_MS * 2) MAX_BACKOFF_MS
      = min (INITIAL_BACKOFF_MS * 2 ^ (a + 1)) MAX_BACKOFF_MS := by
  have h : INITIAL_BACKOFF_MS * 2 ^ (a + 1) = INITIAL_BACKOFF_MS * 2 ^ a * 2 := by
    rw [pow_succ, ← mul_assoc]
  rw [h]
  generalize INITIAL_BACKOFF_MS * 2 ^ a = x
  simp only [MAX_BACKOFF_MS]
  omega

lemma acquireLoop_always_already (fs : Nat → CreateResult)
    (h : ∀ i, fs i = .alreadyExists) :
    ∀ r a, acquireLoop fs r a (min (INITIAL_BACKOFF_MS * 2 ^ a) MAX_BACKOFF_MS)
      = (.lockTimeout, (List.range' a r).map
          (fun i => min (INITIAL_BACKOFF_MS * 2 ^ i) MAX_BACKOFF_MS)) := by
  intro r
  induction r with
  | zero => intro a; rw [acquireLoop, h a]; rfl
  | succ r ih =>
    intro a
    rw [acquireLoop, h a]
    simp only [backoff_double a, ih (a + 1), List.range'_succ, List.map_cons]

lemma trimEndChars_append_newline (l : List Char) :
    trimEndChars (l ++ ['\n']) = trimEndChars l := by
  simp [trimEndChars, List.reverse_append, List.dropWhile_cons]

lemma not_whitespace_of_alnum (c : Char) (h : c.isAlphanum = true) :
    c.isWhitespace = false := by
  rcases Bool.eq_false_or_eq_true c.isWhitespace with h' | h'
  · exfalso
    have : ((c = ' ' ∨ c = '\t') ∨ c = '\r') ∨ c = '\n' := by
      simpa [Char.isWhitespace] using h'
    rcases this with ((rfl | rfl) | rfl) | rfl <;> exact absurd h (by decide)
  · exact h'

lemma trimEndChars_of_alnum (l : List Char) (h : ∀ c ∈ l, c.isAlphanum = true) :
    trimEndChars l = l := by
  unfold trimEndChars
  cases hl : l.reverse with
  | nil =>
    have : l = [] := by simpa using congrArg List.reverse hl
    simp [this]
  | cons c rest =>
    have hc : c ∈ l := by
      have : c ∈ l.reverse := by rw [hl]; exact List.mem_cons_self c rest
      simpa using this
    rw [List.dropWhile_cons, not_whitespace_of_alnum c (h c hc)]
    simp [← hl]

lemma trimUnderscores_cons_underscore (l : List Char) :
    trimUnderscores ('_' :: l) = trimUnderscores l := by
  simp [trimUnderscores, List.dropWhile_cons]

lemma trimUnderscores_append_underscore (l : List Char) :
    trimUnderscores (l ++ ['_']) = trimUnderscores l := by
  induction l with
  | nil => rfl
  | cons c l ih =>
    by_cases hc : c = '_'
    · subst hc
      rw [List.cons_append, trimUnderscores_cons_underscore,
        trimUnderscores_cons_underscore, ih]
    · simp [trimUnderscores, List.dropWhile_cons, hc, List.reverse_append]

lemma sanitize_len (s : String) : (sanitize_ref s).length ≤ MAX_REF_LEN := by
  show (sanitizeChars s.toList).length ≤ MAX_REF_LEN
  unfold sanitizeChars
  split
  · simp
  · omega

lemma sanNormalized_ne_nil (l : List Char) : sanNormalized l ≠ [] := by
  unfold sanNormalized
  split
  · simp
  · assumption

lemma sanitize_ne_empty (s : String) : sanitize_ref s ≠ "" := by
  intro h
  have hdata : sanitizeChars s.toList = [] := congrArg String.data h
  revert hdata
  unfold sanitizeChars
  split
  · rename_i hlt
    intro hdata
    have hlen := congrArg List.length hdata
    rw [List.length_take] at hlen
    simp only [List.length_nil] at hlen
    simp only [MAX_REF_LEN] at hlt hlen
    omega
  · exact sanNormalized_ne_nil s.toList

lemma mem_trimUnderscores {c : Char} {l : List Char} (h : c ∈ trimUnderscores l) :
    c ∈ l := by
  unfold trimUnderscores at h
  rw [List.mem_reverse] at h
  have h2 := (List.dropWhile_sublist _).mem h
  rw [List.mem_reverse] at h2
  exact (List.dropWhile_sublist _).mem h2

lemma sanChar_ok (c : Char) :
    (sanChar c).isAlphanum = true ∨ sanChar c = '.' ∨ sanChar c = '-' ∨ sanChar c = '_' := by
  unfold sanChar
  split
  · rename_i h
    simp only [Bool.or_eq_true, decide_eq_true_eq] at h
    rcases h with ((h | h) | h) | h
    · exact Or.inl h
    · exact Or.inr (Or.inl h)
    · exact Or.inr (Or.inr (Or.inl h))
    · exact Or.inr (Or.inr (Or.inr h))
  · exact Or.inr (Or.inr (Or.inr rfl))

lemma mem_sanNormalized {c : Char} {l : List Char} (h : c ∈ sanNormalized l) :
    c ∈ trimUnderscores (sanMapped l) ∨ c ∈ (['r', 'e', 'f'] : List Char) := by
  revert h
  unfold sanNormalized
  split
  · exact fun h => Or.inr h
  · exact fun h => Or.inl h

lemma sanitize_chars_ok (s : String) (c : Char) (h : c ∈ (sanitize_ref s).toList) :
    c.isAlphanum = true ∨ c = '.' ∨ c = '-' ∨ c = '_' := by
  have h1 : c ∈ sanitizeChars s.toList := h
  have h2 : c ∈ sanNormalized s.toList := by
    revert h1
    unfold sanitizeChars
    split
    · exact fun h1 => (List.take_sublist _ _).mem h1
    · exact id
  rcases mem_sanNormalized h2 with h3 | h3
  · have := mem_trimUnderscores h3
    rw [sanMapped, List.mem_map] at this
    obtain ⟨a, -, rfl⟩ := this
    exact sanChar_ok a
  · simp only [List.mem_cons, List.not_mem_nil, or_false] at h3
    rcases h3 with rfl | rfl | rfl <;> exact Or.inl (by decide)

lemma sanitize_all_underscore (s : String) (h : ∀ c ∈ s.toList, sanChar c = '_') :
    sanitize_ref s = "ref" := by
  have hmap : sanMapped s.toList = List.replicate (sanMapped s.toList).length '_' := by
    apply List.eq_replicate_of_mem
    intro b hb
    rw [sanMapped, List.mem_map] at hb
    obtain ⟨a, ha, rfl⟩ := hb
    exact h a ha
  have htrim : ∀ n, trimUnderscores (List.replicate n '_') = [] := by
    intro n
    induction n with
    | zero => rfl
    | succ n ih => rw [List.replicate_succ, trimUnderscores_cons_underscore, ih]
  have h1 : trimUnderscores (sanMapped s.toList) = [] := by
    rw [hmap]; exact htrim _
  show String.mk (sanitizeChars s.toList) = "ref"
  unfold sanitizeChars sanNormalized
  rw [h1]
  simp [MAX_REF_LEN]

lemma register_idempotent_general (p : RegisterParams) (rid sid fr fs fr2 fs2 : String)
    (doc? : Option SessionFile) (ids : String × String)
    (hr : p.reviewer_id? = some rid) (hs : p.session_id? = some sid)
    (hok : (register_reviewer p fr fs doc?).result = .ok ids) :
    ids = (rid, sid) ∧
    register_reviewer p fr2 fs2
        (persistedAfter doc? (register_reviewer p fr fs doc?).writes) =
      ⟨.ok (rid, sid), []⟩ := by
  obtain ⟨hv1, hv2, hv3⟩ := register_ok_valid p rid sid fr fs doc? ids hr hs hok
  have heq := register_reviewer_explicit p rid sid fr fs doc? hr hs hv1 hv2 hv3
  rw [heq] at hok
  obtain ⟨hids, hcases⟩ := registerCore_ok_cases p rid sid _ ids hok
  refine ⟨hids, ?_⟩
  have hPdP : ∃ dP, persistedAfter doc? (register_reviewer p fr fs doc?).writes = some dP ∧
      RegEstablished p rid sid dP := by
    rw [heq]
    rcases hcases with ⟨hw, hest⟩ | ⟨d', hw, hest⟩
    · rw [hw]
      cases hdoc : doc? with
      | none =>
        exfalso
        rw [hdoc] at hest
        obtain ⟨⟨e, hfind, -⟩, -⟩ := hest
        simp [freshDoc] at hfind
      | some doc =>
        rw [hdoc] at hest
        exact ⟨doc, rfl, by simpa using hest⟩
    · rw [hw]
      exact ⟨d', rfl, hest⟩
  obtain ⟨dP, hP, hest⟩ := hPdP
  rw [heq] at hP
  rw [heq, hP, register_reviewer_explicit p rid sid fr2 fs2 (some dP) hr hs hv1 hv2 hv3]
  exact registerCore_established p rid sid dP hest

/-! ## Claim theorems -/

/-- C1: when the lock marker already exists, `acquire_lock` sleeps and
retries with exponential backoff starting at 100ms, doubling each attempt,
capped at 6400ms, for up to `maxRetries` attempts (default 8), and exceeding
the budget fails with the distinguishable `lockTimeout` result; with
`maxRetries = 0` and the marker present it fails immediately with no sleeps;
any non-`AlreadyExists` I/O failure on a creation attempt is surfaced
immediately as `ioError`, with no further retries or sleeps. -/
theorem C1_lock_acquire_backoff :
    (∀ (fs : Nat → CreateResult) (m : Nat), (∀ i, fs i = .alreadyExists) →
      acquire_lock fs m = (.lockTimeout, backoffSchedule m)) ∧
    (∀ fs : Nat → CreateResult, fs 0 = .alreadyExists →
      acquire_lock fs 0 = (.lockTimeout, [])) ∧
    (∀ (fs : Nat → CreateResult) (r a w code : Nat), fs a = .otherErr code →
      acquireLoop fs r a w = (.ioError code, [])) ∧
    DEFAULT_MAX_RETRIES = 8 := by
  refine ⟨?_, ?_, ?_, rfl⟩
  · intro fs m h
    have := acquireLoop_always_already fs h m 0
    simpa [acquire_lock, backoffSchedule, List.range_eq_range'] using this
  · intro fs h
    unfold acquire_lock
    rw [acquireLoop, h]
  · intro fs r a w code h
    cases r <;> rw [acquireLoop, h]

/-- Witness for C1 at concrete inputs: the default budget of 8 retries with
the marker always present sleeps 100..6400 (capped) and times out; zero
retries fail immediately; a distinct I/O failure surfaces at once. -/
theorem C1_lock_acquire_backoff_witness :
    acquire_lock (fun _ => .alreadyExists) DEFAULT_MAX_RETRIES
      = (.lockTimeout, [100, 200, 400, 800, 1600, 3200, 6400, 6400]) ∧
    acquire_lock (fun _ => .alreadyExists) 0 = (.lockTimeout, []) ∧
    acquire_lock (fun _ => .otherErr 5) DEFAULT_MAX_RETRIES = (.ioError 5, []) := by
  refine ⟨?_, ?_, ?_⟩
  · rw [C1_lock_acquire_backoff.1 (fun _ => .alreadyExists) DEFAULT_MAX_RETRIES
      (fun _ => rfl)]
    decide
  · exact C1_lock_acquire_backoff.2.1 (fun _ => .alreadyExists) rfl
  · exact C1_lock_acquire_backoff.2.2.1 (fun _ => .otherErr 5) DEFAULT_MAX_RETRIES 0 100 5 rfl

/-- C6: release deletes the marker only when the stored (trimmed) token
equals the caller's token; a mismatch leaves the marker in place and still
succeeds; a missing marker succeeds as a no-op; a marker written by
`acquire_lock` for an alphanumeric owner token is removed by that owner. -/
theorem C6_release_owner_match :
    (∀ owner : List Char, release_lock none owner = (.ok (), none)) ∧
    (∀ owner contents : List Char, trimEndChars contents ≠ owner →
      release_lock (some contents) owner = (.ok (), some contents)) ∧
    (∀ owner contents : List Char, trimEndChars contents = owner →
      release_lock (some contents) owner = (.ok (), none)) ∧
    (∀ owner : List Char, (∀ c ∈ owner, c.isAlphanum = true) →
      release_lock (some (markerBody owner)) owner = (.ok (), none)) := by
  refine ⟨fun owner => rfl, ?_, ?_, ?_⟩
  · intro owner contents h
    simp [release_lock, h]
  · intro owner contents h
    simp [release_lock, h]
  · intro owner h
    have : trimEndChars (markerBody owner) = owner := by
      rw [markerBody, trimEndChars_append_newline, trimEndChars_of_alnum owner h]
    simp [release_lock, this]

/-- Witness for C6, mirroring the Rust unit test
`release_lock_handles_missing_and_mismatch`: missing marker ok; mismatched
owner leaves the file; matching owner removes it. -/
theorem C6_release_owner_match_witness :
    release_lock none "deadbeef".toList = (.ok (), none) ∧
    release_lock (some "owner-a\n".toList) "owner-b".toList
      = (.ok (), some "owner-a\n".toList) ∧
    release_lock (some "owner-a\n".toList) "owner-a".toList = (.ok (), none) :=
  ⟨C6_release_owner_match.1 _,
   C6_release_owner_match.2.1 _ _ (by decide),
   C6_release_owner_match.2.2.1 _ _ (by decide)⟩

/-- C9 (code bug): in the `apply-code-review` and `perform-code-review`
copies of `wait_for_reviews` a missing `_session.json` makes the wait fail
immediately with a read error — both with and without filters — whereas the
claimed behavior (return success with no filters, keep polling with filters)
is implemented only by the `code-review` copy, `wait_step_cr`. -/
theorem C9_wait_missing_document_divergence :
    wait_step none none none = .fail ∧
    wait_step none (some "main") (some "sess0001") = .fail ∧
    wait_step_cr false none none none = .ret ∧
    wait_step_cr false none (some "main") none = .sleepRetry ∧
    wait_step_cr false none none (some "sess0001") = .sleepRetry := by
  refine ⟨rfl, rfl, rfl, rfl, rfl⟩

/-- C8: `sanitize_ref` keeps ASCII alphanumerics and `.` `-` `_` and replaces
every other character with `'_'` (per-character); trimming removes leading
and trailing underscores (prepending or appending an underscore never changes
the result); an input whose characters all map to `'_'` yields the fixed
placeholder `"ref"`; the result is never empty, contains only kept
characters, and is capped at 64 characters; concretely
`sanitize_ref "refs/heads/main" = "refs_heads_main"` and an over-length
input is truncated to the cap. -/
theorem C8_sanitize_ref_spec :
    sanitize_ref "refs/heads/main" = "refs_heads_main" ∧
    sanitize_ref "!!!" = "ref" ∧
    sanitize_ref (String.mk (List.replicate 70 'a')) = String.mk (List.replicate 64 'a') ∧
    (∀ c : Char, (c.isAlphanum = true ∨ c = '.' ∨ c = '-' ∨ c = '_') → sanChar c = c) ∧
    (∀ c : Char, ¬ (c.isAlphanum = true ∨ c = '.' ∨ c = '-' ∨ c = '_') → sanChar c = '_') ∧
    (∀ l : List Char, trimUnderscores ('_' :: l) = trimUnderscores l) ∧
    (∀ l : List Char, trimUnderscores (l ++ ['_']) = trimUnderscores l) ∧
    (∀ s : String, (sanitize_ref s).length ≤ MAX_REF_LEN) ∧
    (∀ s : String, sanitize_ref s ≠ "") ∧
    (∀ (s : String) (c : Char), c ∈ (sanitize_ref s).toList →
      (c.isAlphanum = true ∨ c = '.' ∨ c = '-' ∨ c = '_')) ∧
    (∀ s : String, (∀ c ∈ s.toList, sanChar c = '_') → sanitize_ref s = "ref") := by
  refine ⟨by decide, by decide, by decide, ?_, ?_, trimUnderscores_cons_underscore,
    trimUnderscores_append_underscore, sanitize_len, sanitize_ne_empty,
    sanitize_chars_ok, sanitize_all_underscore⟩
  · intro c hc
    unfold sanChar
    rw [if_pos]
    simp only [Bool.or_eq_true, decide_eq_true_eq]
    tauto
  · intro c hc
    unfold sanChar
    rw [if_neg]
    simp only [Bool.or_eq_true, decide_eq_true_eq]
    tauto

/-- Witness for C8 at concrete inputs: an all-punctuation input sanitizes to
the placeholder; a kept character survives; a slash becomes an underscore;
underscore-trimming instances. -/
theorem C8_sanitize_ref_spec_witness :
    sanitize_ref "///" = "ref" ∧
    sanChar 'a' = 'a' ∧
    sanChar '/' = '_' ∧
    trimUnderscores ('_' :: ['a']) = trimUnderscores ['a'] ∧
    trimUnderscores (['a'] ++ ['_']) = trimUnderscores ['a'] :=
  ⟨C8_sanitize_ref_spec.2.2.2.2.2.2.2.2.2.2 "///" (by decide),
   C8_sanitize_ref_spec.2.2.2.1 'a' (by decide),
   C8_sanitize_ref_spec.2.2.2.2.1 '/' (by decide),
   C8_sanitize_ref_spec.2.2.2.2.2.1 ['a'],
   C8_sanitize_ref_spec.2.2.2.2.2.2.1 ['a']⟩

/-- C4: every mutating operation is atomic on failure — an error outcome
means no document write happened, so the persisted `_session.json` is exactly
the pre-call state; and every operation writes the in-memory document at most
once. -/
theorem C4_mutations_atomic_on_failure :
    (∀ (p : RegisterParams) (fr fs : String) (doc? : Option SessionFile),
      ErrAtomic doc? (register_reviewer p fr fs doc?)) ∧
    (∀ (p : UpdateReviewParams) (doc? : Option SessionFile),
      ErrAtomic doc? (update_review p doc?)) ∧
    (∀ (p : AppendNoteParams) (doc? : Option SessionFile),
      ErrAtomic doc? (append_note p doc?)) ∧
    (∀ (p : SetInitiatorStatusParams) (doc? : Option SessionFile),
      ErrAtomic doc? (set_initiator_status p doc?)) ∧
    (∀ (p : FinalizeParams) (sd : String) (doc? : Option SessionFile)
        (re : Bool) (rel : Option String),
      (∀ e, (finalize_review p sd doc? re rel).result = .error e →
        (finalize_review p sd doc? re rel).writes = [] ∧
        persistedAfter doc? (finalize_review p sd doc? re rel).writes = doc?) ∧
      (finalize_review p sd doc? re rel).writes.length ≤ 1) :=
  ⟨register_reviewer_atomic, update_review_atomic, append_note_atomic,
   set_initiator_status_atomic, finalize_review_atomic⟩

/-- Witness for C4: the failing update writes nothing and leaves the
persisted document exactly as before. -/
theorem C4_mutations_atomic_on_failure_witness :
    (update_review pC4 (some dC4)).writes = [] ∧
    persistedAfter (some dC4) (update_review pC4 (some dC4)).writes = some dC4 :=
  (C4_mutations_atomic_on_failure.2.1 pC4 (some dC4)).1 .entryNotFound rfl

/-- C5: starting from a document in which `reviewers` is exactly the set of
distinct `reviewer_id`s across `reviews`, every operation leaves the
persisted document satisfying the same equality. -/
theorem C5_reviewers_invariant_preserved :
    (∀ (p : RegisterParams) (fr fs : String) (doc? : Option SessionFile),
      PreservesInv doc? (register_reviewer p fr fs doc?).writes) ∧
    (∀ (p : UpdateReviewParams) (doc? : Option SessionFile),
      PreservesInv doc? (update_review p doc?).writes) ∧
    (∀ (p : AppendNoteParams) (doc? : Option SessionFile),
      PreservesInv doc? (append_note p doc?).writes) ∧
    (∀ (p : SetInitiatorStatusParams) (doc? : Option SessionFile),
      PreservesInv doc? (set_initiator_status p doc?).writes) ∧
    (∀ (p : FinalizeParams) (sd : String) (doc? : Option SessionFile)
        (re : Bool) (rel : Option String),
      PreservesInv doc? (finalize_review p sd doc? re rel).writes) :=
  ⟨register_reviewer_preservesInv, update_review_preservesInv,
   append_note_preservesInv, set_initiator_status_preservesInv,
   finalize_review_preservesInv⟩

/-- Witness for C5: registering a reviewer into an invariant-satisfying
document yields a document that still satisfies the invariant. -/
theorem C5_reviewers_invariant_preserved_witness : reviewersExact dC5post :=
  C5_reviewers_invariant_preserved.1 pC5 "aaaaaaaa" "bbbbbbbb" (some dC5)
    (fun doc hdoc => by
      injection hdoc with h2
      subst h2
      intro x
      simp [dC5])
    dC5post rfl

/-- C2: for a valid explicit `(reviewerId, sessionId)` pair, a successful
`register` returns exactly those identifiers, and calling `register` again
with identical arguments (any fresh-id inputs, since the overrides are
explicit) returns the same identifiers and performs no write at all — the
persisted document is untouched, so the `reviews` length and every field of
the existing entry are unchanged and `reviewers` is already complete. -/
theorem C2_register_idempotent (p : RegisterParams) (rid sid fr fs fr2 fs2 : String)
    (doc? : Option SessionFile) (ids : String × String)
    (hr : p.reviewer_id? = some rid) (hs : p.session_id? = some sid)
    (hok : (register_reviewer p fr fs doc?).result = .ok ids) :
    ids = (rid, sid) ∧
    register_reviewer p fr2 fs2
        (persistedAfter doc? (register_reviewer p fr fs doc?).writes) =
      ⟨.ok (rid, sid), []⟩ :=
  register_idempotent_general p rid sid fr fs fr2 fs2 doc? ids hr hs hok

/-- Witness for C2: a concrete second registration with identical arguments
returns the same identifiers and writes nothing. -/
theorem C2_register_idempotent_witness :
    register_reviewer pC2 "cccccccc" "dddddddd"
        (persistedAfter (some dC2)
          (register_reviewer pC2 "aaaaaaaa" "bbbbbbbb" (some dC2)).writes) =
      ⟨.ok ("deadbeef", "sess0001"), []⟩ :=
  (C2_register_idempotent pC2 "deadbeef" "sess0001" "aaaaaaaa" "bbbbbbbb"
    "cccccccc" "dddddddd" (some dC2) ("deadbeef", "sess0001") rfl rfl rfl).2

/-- C3: finalize is not idempotent — for an entry whose `report_file` is
already set, `finalize_review` fails with the `conflictReportExists` error in
phase 1, writes no document and no report file, and the persisted document
(hence the original `report_file` value) is unchanged. -/
theorem C3_finalize_not_idempotent (p : FinalizeParams) (sd : String)
    (doc : SessionFile) (re : Bool) (rel : Option String) (e : ReviewEntry) (f : String)
    (hv1 : validate_id8 p.reviewer_id = true) (hv2 : validate_id8 p.session_id = true)
    (hfind : doc.reviews.find? (matchKey p.reviewer_id p.session_id) = some e)
    (hrf : e.report_file = some f) :
    finalize_review p sd (some doc) re rel = ⟨.error .conflictReportExists, [], none⟩ ∧
    persistedAfter (some doc) (finalize_review p sd (some doc) re rel).writes
      = some doc := by
  have h1 : finalize_review p sd (some doc) re rel
      = ⟨.error .conflictReportExists, [], none⟩ := by
    unfold finalize_review
    rw [if_neg (by simp [hv1]), if_neg (by simp [hv2])]
    simp only [hfind, hrf, Option.isSome_some, if_pos]
  exact ⟨h1, by rw [h1]; rfl⟩

/-- Witness for C3: a second finalize on a concrete already-finalized entry
fails with the conflict error, writing nothing. -/
theorem C3_finalize_not_idempotent_witness :
    finalize_review pC3 "/sd" (some dC3) false none
      = ⟨.error .conflictReportExists, [], none⟩ :=
  (C3_finalize_not_idempotent pC3 "/sd" dC3 false none eC3 "existing.md"
    (by decide) (by decide) rfl rfl).1

/-- C10: `update_review` enforces no state-machine rules on the
reviewer-owned status — for any existing entry, whatever its current status
(terminal included), updating with any requested status and/or phase succeeds
and sets exactly the requested values (fields not supplied are untouched),
so a terminal entry can be silently reopened. -/
theorem C10_update_no_transition_rules (p : UpdateReviewParams)
    (doc : SessionFile) (e : ReviewEntry)
    (hv1 : validate_id8 p.reviewer_id = true) (hv2 : validate_id8 p.session_id = true)
    (hfind : doc.reviews.find? (matchKey p.reviewer_id p.session_id) = some e) :
    ∃ l', update_review p (some doc) = ⟨.ok (), [{ doc with reviews := l' }]⟩ ∧
      l'.find? (matchKey p.reviewer_id p.session_id) = some (applyUpdate p e) ∧
      l'.length = doc.reviews.length ∧
      (∀ ns, p.status = some ns → (applyUpdate p e).status = ns) ∧
      (∀ ph, p.phase = some ph → (applyUpdate p e).current_phase = ph) ∧
      (p.status = none → (applyUpdate p e).status = e.status) ∧
      (p.phase = none → (applyUpdate p e).current_phase = e.current_phase) ∧
      (applyUpdate p e).updated_at = p.now ∧
      (applyUpdate p e).reviewer_id = e.reviewer_id ∧
      (applyUpdate p e).verdict = e.verdict ∧
      (applyUpdate p e).report_file = e.report_file := by
  obtain ⟨l', h1, h2, h3⟩ :=
    @updateFirst_of_find? (matchKey p.reviewer_id p.session_id) (applyUpdate p)
      (fun a ha => ha) doc.reviews e hfind
  refine ⟨l', ?_, h2, h3, ?_, ?_, ?_, ?_, rfl, rfl, rfl, rfl⟩
  · unfold update_review
    rw [if_neg (by simp [hv1]), if_neg (by simp [hv2])]
    simp only [h1]
  · intro ns hns
    simp [applyUpdate, hns]
  · intro ph hph
    simp [applyUpdate, hph]
  · intro hns
    simp [applyUpdate, hns]
  · intro hph
    simp [applyUpdate, hph]

/-- Witness for C10: updating a concrete `FINISHED` entry to `IN_PROGRESS`
succeeds and sets exactly the requested status. -/
theorem C10_update_no_transition_rules_witness :
    eC10.status.is_terminal = true ∧
    update_review pC10 (some dC10) = ⟨.ok (), [{ dC10 with reviews := [applyUpdate pC10 eC10] }]⟩ ∧
    (applyUpdate pC10 eC10).status = .inProgress := by
  obtain ⟨l', h1, h2, h3, h4, h5, h6, h7, h8, h9, h10, h11⟩ :=
    C10_update_no_transition_rules pC10 dC10 eC10 (by decide) (by decide) rfl
  exact ⟨by decide, by decide, h4 .inProgress rfl⟩

/-- Counterexample to C7 as stated: in `dC7` no still-open (non-terminal)
entry matches `(main, sess0001)`, so the claim predicts the new entry gets
`initiator_status = Requesting`; the code inherits `Applied` from the
terminal entry `eC7` instead. -/
theorem C7_initiator_inherit_counterexample :
    dC7.reviews.find?
        (fun r => r.target_ref == "main" && r.session_id == "sess0001"
          && r.status.joinable) = none ∧
    register_reviewer pC7 "ffffffff" "eeeeeeee" (some dC7) =
      ⟨.ok ("bbbbbbbb", "sess0001"),
        [{ dC7 with
            reviewers := ["aaaaaaaa", "bbbbbbbb"]
            reviews := dC7.reviews ++ [newEntry pC7 "bbbbbbbb" "sess0001" dC7] }]⟩ ∧
    (newEntry pC7 "bbbbbbbb" "sess0001" dC7).initiator_status = .applied ∧
    InitiatorStatus.applied ≠ InitiatorStatus.requesting := by
  refine ⟨by decide, by decide, by decide, by decide⟩

/-- C7 (amended): a new entry created by register has status `Initializing`
and inherits `initiator_status` from the *first* existing entry matching
`(target_ref, session_id)` — regardless of whether that entry is still open —
falling back to `Requesting` when no such entry exists; the inheritance
source always belongs to the same session (and target ref), never a
different one. -/
theorem C7_initiator_inherit_amended (p : RegisterParams) (rid sid fr fs : String)
    (doc : SessionFile)
    (hr : p.reviewer_id? = some rid) (hs : p.session_id? = some sid)
    (hv1 : validate_id8 rid = true) (hv2 : validParent p.parent_id? = true)
    (hv3 : validate_id8 sid = true)
    (hnone : doc.reviews.find? (matchKey rid sid) = none) :
    register_reviewer p fr fs (some doc) =
      ⟨.ok (rid, sid),
        [{ doc with
            reviewers := if rid ∈ doc.reviewers then doc.reviewers
              else doc.reviewers ++ [rid],
            reviews := doc.reviews ++ [newEntry p rid sid doc] }]⟩ ∧
    (newEntry p rid sid doc).status = .initializing ∧
    ((doc.reviews.find?
        (fun r => r.target_ref == p.target_ref && r.session_id == sid) = none ∧
      (newEntry p rid sid doc).initiator_status = .requesting) ∨
     (∃ e, doc.reviews.find?
        (fun r => r.target_ref == p.target_ref && r.session_id == sid) = some e ∧
      (newEntry p rid sid doc).initiator_status = e.initiator_status ∧
      e.session_id = sid ∧ e.target_ref = p.target_ref)) := by
  refine ⟨?_, rfl, ?_⟩
  · rw [register_reviewer_explicit p rid sid fr fs (some doc) hr hs hv1 hv2 hv3]
    exact registerCore_eq_new p rid sid doc hnone
  · rcases hf : doc.reviews.find?
        (fun r => r.target_ref == p.target_ref && r.session_id == sid) with _ | e
    · exact Or.inl ⟨hf, by simp [newEntry, inheritedInitiator, hf]⟩
    · refine Or.inr ⟨e, hf, by simp [newEntry, inheritedInitiator, hf], ?_, ?_⟩
      · have := List.find?_some hf
        simp only [Bool.and_eq_true, beq_iff_eq] at this
        exact this.2
      · have := List.find?_some hf
        simp only [Bool.and_eq_true, beq_iff_eq] at this
        exact this.1

/-- Witness for the amended C7: the concrete registration inherits `Applied`
from the closed same-session entry and the new entry is `Initializing`. -/
theorem C7_initiator_inherit_amended_witness :
    (newEntry pC7 "bbbbbbbb" "sess0001" dC7).status = .initializing ∧
    register_reviewer pC7 "ffffffff" "eeeeeeee" (some dC7) =
      ⟨.ok ("bbbbbbbb", "sess0001"),
        [{ dC7 with
            reviewers := dC7.reviewers ++ ["bbbbbbbb"]
            reviews := dC7.reviews ++ [newEntry pC7 "bbbbbbbb" "sess0001" dC7] }]⟩ := by
  have h := C7_initiator_inherit_amended pC7 "bbbbbbbb" "sess0001" "ffffffff"
    "eeeeeeee" dC7 rfl rfl (by decide) (by decide) (by decide) rfl
  refine ⟨h.2.1, ?_⟩
  rw [h.1]
  decide

end Mpcr
